import Mathlib

/-!
# Verification of the IADB Toolbox format converters

A shallow embedding of the file-format conversion routines of the IADB
Toolbox QGIS plugin (`utils.py`): the batch-script generator
`generate_batch_file`, the DEM-to-`.top` converter `dem_to_top`, the
point-layer-to-`.pts` converter `points_to_pts`, and the `.QGIS_res`
to netCDF converter `res_to_netcdf` together with its helper `truncate`.

Python floats are modelled as exact rationals (`ℚ`); the text files the
converters write are modelled as lists of structured lines carrying the
numeric payloads that the Python code interpolates into each line.
Host-application objects (raster providers, feature sources) are modelled
by their values: a raster is its size, pixel size, extent and per-cell
value/no-data functions; a feature source is a list of point features.
-/

/-! ## Numeric helpers

`ratTrunc` models Python's `math.trunc` (round toward zero).
`truncate` models the module-level helper `truncate(number, digits)`:
it counts the decimals of `str(number)` and truncates only when there are
more than `digits` of them.  On exact rationals "at most `digits`
decimals" is `(number * 10 ^ digits).den = 1`.
-/

def ratTrunc (q : ℚ) : ℤ := if 0 ≤ q then q.floor else q.ceil

def truncate (number : ℚ) (digits : ℕ) : ℚ :=
  if (number * 10 ^ digits).den = 1 then number
  else (ratTrunc ((10 : ℚ) ^ digits * number) : ℚ) / (10 : ℚ) ^ digits

/-! ## `generate_batch_file`

The Python function writes `files.txt` (the problem name repeated in a
`for i in range(2)` loop) and a `.bat` script of four fixed lines.  The
model returns the pair (lines of `files.txt`, lines of the batch script).
-/

def generate_batch_file (problem_name : String) (work_dir : String) :
    List String × List String :=
  ((List.range 2).map (fun _ => problem_name),
   ["set CWDIR=%~dp0",
    "cd " ++ work_dir,
    "SPH24.exe < files.txt",
    "cd %WDIR%"])

/-! ## `dem_to_top`

A raster layer is modelled by its provider size, pixel size, extent and
the per-cell value and no-data test.  (The per-row `provider.block`
request returns the cell values of that row; the block object is part of
the excluded host application.)  The `.top` file is a list of structured
lines; `rewriteCount` models the second pass over the enumerated lines of
the first output, which replaces line index 3 with the valid-cell count.
-/

structure Raster where
  W : ℕ
  H : ℕ
  pixel : ℚ
  xmin : ℚ
  xmax : ℚ
  ymax : ℚ
  value : ℕ → ℕ → ℚ
  noData : ℕ → ℕ → Bool

inductive TopLine where
  | ictop : TopLine
  | ten : TopLine
  | npDeltx : TopLine
  | countLine (np : ℕ) (deltx : ℚ) : TopLine
  | colNames : TopLine
  | dataLine (x y z : ℚ) : TopLine
  | topoProps : TopLine
  | zero : TopLine
deriving DecidableEq

def cellX (r : Raster) (col : ℕ) : ℚ := r.xmin + ((col : ℚ) + 1/2) * r.pixel

def cellY (r : Raster) (row : ℕ) : ℚ := r.ymax - ((row : ℚ) + 1/2) * r.pixel

def topDataLines (r : Raster) : List TopLine :=
  (List.range r.H).flatMap (fun row =>
    (List.range r.W).filterMap (fun col =>
      if r.noData row col then none
      else some (TopLine.dataLine (cellX r col) (cellY r row) (r.value row col))))

def validCount (r : Raster) : ℕ :=
  ((List.range r.H).map (fun row =>
    ((List.range r.W).filter (fun col => !(r.noData row col))).length)).sum

def dem_to_top_pass1 (r : Raster) : List TopLine :=
  [TopLine.ictop, TopLine.ten, TopLine.npDeltx,
   TopLine.countLine (r.W * r.H) r.pixel, TopLine.colNames]
    ++ topDataLines r ++ [TopLine.topoProps, TopLine.zero]

def rewriteCount (r : Raster) : ℕ → List TopLine → List TopLine
  | _, [] => []
  | i, l :: ls =>
      (if i = 3 then TopLine.countLine (validCount r) r.pixel else l)
        :: rewriteCount r (i + 1) ls

def dem_to_top (r : Raster) : List TopLine :=
  rewriteCount r 0 (dem_to_top_pass1 r)

/-! ## `points_to_pts`

A point feature carries its geometry (x, y, z) and the value of the
height attribute field.  The function fetches the features with ids 1
and 2 (the first two features; a failed fetch leaves a default-initialised
`QgsFeature`, modelled by `emptyFeature`), takes the distance between
their points as the global grid-spacing estimate, and writes a three-line
header (the second line also carries the literal constants
`10.0 10.0 2`) followed by one `x\ty\theight` line per feature.
`QgsPointXY.distance` is a Euclidean distance, hence a real square root;
the spacing is the only non-rational value in the model.
-/

structure PtFeature where
  x : ℚ
  y : ℚ
  z : ℚ
  attr : ℚ
deriving DecidableEq

def emptyFeature : PtFeature := ⟨0, 0, 0, 0⟩

noncomputable def qgsDistance (p1 p2 : ℚ × ℚ) : ℝ :=
  Real.sqrt ((((p1.1 - p2.1) ^ 2 + (p1.2 - p2.2) ^ 2 : ℚ) : ℝ))

noncomputable def ptsSpacing (feats : List PtFeature) : ℝ :=
  qgsDistance
    ((feats.getD 0 emptyFeature).x, (feats.getD 0 emptyFeature).y)
    ((feats.getD 1 emptyFeature).x, (feats.getD 1 emptyFeature).y)

inductive PtsLine where
  | header1 : PtsLine
  | header2 (npoin : ℕ) (spacing : ℝ) : PtsLine
  | header3 : PtsLine
  | dataLine (x y h : ℚ) : PtsLine

noncomputable def points_to_pts (feats : List PtFeature) (use_z : Bool) :
    List PtsLine :=
  [PtsLine.header1,
   PtsLine.header2 feats.length (ptsSpacing feats),
   PtsLine.header3]
    ++ feats.map (fun ft =>
        PtsLine.dataLine ft.x ft.y (if use_z then ft.z else ft.attr))

def spacingOf (ls : List PtsLine) : Option ℝ :=
  match ls.get? 1 with
  | some (PtsLine.header2 _ d) => some d
  | _ => none

def isPtsDataLine : PtsLine → Bool
  | PtsLine.dataLine _ _ _ => true
  | _ => false

/-! ## `res_to_netcdf`

The DEM parameters that the converter reads are collected in `GridEnv`.
The accumulation grids `h`, `v_x`, `v_y`, `v_avg` are created by
`numpy.full((H, W), -9999)`, an *integer* array: assigning a Python float
into it truncates the value toward zero, so grids hold `ℤ`.

A line of the `.QGIS_res` file either starts with `"time"` (carrying the
parsed `float(line.split()[3])`) or is a data line whose whitespace
fields each either parse as a float (`some q`) or do not (`none`);
`float(v)` on a non-numeric field raises, modelled by `Option`.

The flush step mirrors `sorted(data, key=itemgetter(1))` (a stable sort
on field 1; `sorted` evaluates the key on every row, raising `IndexError`
on rows shorter than 2), `itertools.groupby` over the sorted rows
(`chunkByKey`), the dict built from the groupby pairs (`dictLookup`
returns the value of the last insertion of a key), and the per-row
matching of `truncate(y_center, 1)` against the group keys.  numpy
indexing accepts negative indices down to `-W` (wrapping around) and
raises `IndexError` beyond that (`npIndex`).
-/

structure GridEnv where
  W : ℕ
  H : ℕ
  pixel : ℚ
  xmin : ℚ
  ymax : ℚ

def Grid : Type := ℕ → ℕ → ℤ

structure Grids where
  h : Grid
  vX : Grid
  vY : Grid
  vAvg : Grid

def fillGrid : Grid := fun _ _ => -9999

def initGrids : Grids := ⟨fillGrid, fillGrid, fillGrid, fillGrid⟩

def gridSet (g : Grid) (r c : ℕ) (v : ℤ) : Grid :=
  fun r' c' => if r' = r ∧ c' = c then v else g r' c'

def keyD (row : List ℚ) : ℚ := row.getD 1 0

def keyLE (a b : List ℚ) : Prop := keyD a ≤ keyD b

instance : DecidableRel keyLE :=
  fun a b => inferInstanceAs (Decidable (keyD a ≤ keyD b))

instance : IsTotal (List ℚ) keyLE := ⟨fun a b => le_total (keyD a) (keyD b)⟩

instance : IsTrans (List ℚ) keyLE := ⟨fun _ _ _ hab hbc => le_trans hab hbc⟩

def sortData (D : List (List ℚ)) : List (List ℚ) := D.insertionSort keyLE

def chunkPush (r : List ℚ) : List (ℚ × List (List ℚ)) →
    List (ℚ × List (List ℚ))
  | [] => [(keyD r, [r])]
  | (k, grp) :: rest =>
      if keyD r = k then (k, r :: grp) :: rest
      else (keyD r, [r]) :: (k, grp) :: rest

def chunkByKey : List (List ℚ) → List (ℚ × List (List ℚ))
  | [] => []
  | r :: rs => chunkPush r (chunkByKey rs)

def dictLookup (assoc : List (ℚ × List (List ℚ))) (y : ℚ) :
    Option (List (List ℚ)) :=
  (assoc.reverse.find? (fun p => decide (p.1 = y))).map Prod.snd

def npIndex (n : ℕ) (i : ℤ) : Option ℕ :=
  if 0 ≤ i ∧ i < (n : ℤ) then some i.toNat
  else if -(n : ℤ) ≤ i ∧ i < 0 then some (i + n).toNat
  else none

def colIndex (env : GridEnv) (i : List ℚ) : ℤ :=
  ratTrunc ((i.getD 0 0 - env.xmin) / env.pixel)

def rowCenterY (env : GridEnv) (row : ℕ) : ℚ :=
  env.ymax - ((row : ℚ) + 1/2) * env.pixel

def rowKey (env : GridEnv) (row : ℕ) : ℚ := truncate (rowCenterY env row) 1

def writeSample (env : GridEnv) (row : ℕ) (g : Grids) (i : List ℚ) :
    Option Grids :=
  (i.get? 0).bind fun x =>
  (i.get? 2).bind fun hv =>
  (i.get? 3).bind fun vxv =>
  (i.get? 4).bind fun vyv =>
  (i.get? 5).bind fun vav =>
  (npIndex env.W (ratTrunc ((x - env.xmin) / env.pixel))).bind fun col =>
  some ⟨gridSet g.h row col (ratTrunc hv),
        gridSet g.vX row col (ratTrunc vxv),
        gridSet g.vY row col (ratTrunc vyv),
        gridSet g.vAvg row col (ratTrunc vav)⟩

def flushRow (env : GridEnv) (groups : List (ℚ × List (List ℚ)))
    (gr : Grids) (row : ℕ) : Option Grids :=
  match dictLookup groups (rowKey env row) with
  | some samples => samples.foldlM (writeSample env row) gr
  | none => some gr

def flushData (env : GridEnv) (D : List (List ℚ)) (g0 : Grids) :
    Option Grids :=
  if D.all (fun r => decide (2 ≤ r.length)) then
    (List.range env.H).foldlM (flushRow env (chunkByKey (sortData D))) g0
  else none

inductive ResLine where
  | timeLine (t : ℚ) : ResLine
  | dataLine (fields : List (Option ℚ)) : ResLine
deriving DecidableEq

def parseFields : List (Option ℚ) → Option (List ℚ)
  | [] => some []
  | none :: _ => none
  | some q :: t => (parseFields t).map (fun vs => q :: vs)

def ResLine.isData : ResLine → Bool
  | ResLine.timeLine _ => false
  | ResLine.dataLine _ => true

structure ResState where
  data : List (List ℚ)
  sphTime : Option ℚ
  blockRead : Bool
  c : ℕ
  grids : Grids
  heightVar : ℕ → Grid
  vxVar : ℕ → Grid
  vyVar : ℕ → Grid
  vavgVar : ℕ → Grid
  timeDimLen : ℕ
  nDates : ℕ

def initResState : ResState :=
  { data := []
    sphTime := none
    blockRead := false
    c := 0
    grids := initGrids
    heightVar := fun _ => fillGrid
    vxVar := fun _ => fillGrid
    vyVar := fun _ => fillGrid
    vavgVar := fun _ => fillGrid
    timeDimLen := 0
    nDates := 0 }

def flushState (env : GridEnv) (s : ResState) : Option ResState :=
  match flushData env s.data s.grids with
  | some g =>
      some { s with
        c := s.c + 1
        data := []
        heightVar := fun t => if t = s.c + 1 then g.h else s.heightVar t
        vxVar := fun t => if t = s.c + 1 then g.vX else s.vxVar t
        vyVar := fun t => if t = s.c + 1 then g.vY else s.vyVar t
        vavgVar := fun t => if t = s.c + 1 then g.vAvg else s.vavgVar t
        timeDimLen := max s.timeDimLen (s.c + 1 + 1)
        grids := initGrids
        blockRead := false }
  | none => none

def resStep (env : GridEnv) (s : ResState) (l : ResLine) : Option ResState :=
  match l with
  | ResLine.timeLine t =>
      some { s with
        blockRead := if s.sphTime.isSome then true else s.blockRead
        sphTime := some t
        nDates := s.nDates + 1 }
  | ResLine.dataLine fields =>
      match (if s.blockRead then flushState env s else some s) with
      | some s1 =>
          match parseFields fields with
          | some values => some { s1 with data := s1.data ++ [values] }
          | none => none
      | none => none

def resRunFrom (env : GridEnv) (s : ResState) (lines : List ResLine) :
    Option ResState :=
  lines.foldlM (resStep env) s

def resRun (env : GridEnv) (lines : List ResLine) : Option ResState :=
  resRunFrom env initResState lines

structure ResOutput where
  timeDimLen : ℕ
  height : ℕ → Grid
  vx : ℕ → Grid
  vy : ℕ → Grid
  vavg : ℕ → Grid

def resOutput (s : ResState) : ResOutput :=
  { timeDimLen := max s.timeDimLen s.nDates
    height := s.heightVar
    vx := s.vxVar
    vy := s.vyVar
    vavg := s.vavgVar }

def res_to_netcdf (env : GridEnv) (lines : List ResLine) : Option ResOutput :=
  (resRun env lines).map resOutput

def outLen (env : GridEnv) (lines : List ResLine) : ℕ :=
  match res_to_netcdf env lines with
  | some o => o.timeDimLen
  | none => 0

def outHeight (env : GridEnv) (lines : List ResLine) (t r c : ℕ) : ℤ :=
  match res_to_netcdf env lines with
  | some o => o.height t r c
  | none => 0

def outVx (env : GridEnv) (lines : List ResLine) (t r c : ℕ) : ℤ :=
  match res_to_netcdf env lines with
  | some o => o.vx t r c
  | none => 0

def outVy (env : GridEnv) (lines : List ResLine) (t r c : ℕ) : ℤ :=
  match res_to_netcdf env lines with
  | some o => o.vy t r c
  | none => 0

def outVavg (env : GridEnv) (lines : List ResLine) (t r c : ℕ) : ℤ :=
  match res_to_netcdf env lines with
  | some o => o.vavg t r c
  | none => 0

def flushResult (env : GridEnv) (D : List (List ℚ)) : Grids :=
  (flushData env D initGrids).getD initGrids

def writesTo (env : GridEnv) (D : List (List ℚ)) (r c : ℕ) : Prop :=
  ∃ i ∈ D, keyD i = rowKey env r ∧ npIndex env.W (colIndex env i) = some c

instance (env : GridEnv) (D : List (List ℚ)) (r c : ℕ) :
    Decidable (writesTo env D r c) :=
  inferInstanceAs (Decidable (∃ i ∈ D,
    keyD i = rowKey env r ∧ npIndex env.W (colIndex env i) = some c))

def mkData (v : List ℚ) : ResLine := ResLine.dataLine (v.map some)

def mkResFile (t1 : ℚ) (b1 : List (List ℚ)) (t2 : ℚ) (b2 : List (List ℚ)) :
    List ResLine :=
  ResLine.timeLine t1 :: b1.map mkData
    ++ ResLine.timeLine t2 :: b2.map mkData

/-! Intermediate parser states reached while converting a two-block result
file `time t1 / block b1 / time t2 / block b2` (used to trace the run). -/

def twoBlockS1 (t1 : ℚ) : ResState :=
  { initResState with sphTime := some t1, nDates := 1 }

def twoBlockS2 (t1 : ℚ) (b1 : List (List ℚ)) : ResState :=
  { twoBlockS1 t1 with data := b1 }

def twoBlockS3 (t1 t2 : ℚ) (b1 : List (List ℚ)) : ResState :=
  { twoBlockS2 t1 b1 with blockRead := true, sphTime := some t2, nDates := 2 }

def twoBlockS4 (t1 t2 : ℚ) (b1 : List (List ℚ)) (g : Grids) (v : List ℚ) :
    ResState :=
  { twoBlockS3 t1 t2 b1 with
    c := 1
    data := [v]
    heightVar := fun t => if t = 1 then g.h else fillGrid
    vxVar := fun t => if t = 1 then g.vX else fillGrid
    vyVar := fun t => if t = 1 then g.vY else fillGrid
    vavgVar := fun t => if t = 1 then g.vAvg else fillGrid
    timeDimLen := 2
    grids := initGrids
    blockRead := false }

def twoBlockS5 (t1 t2 : ℚ) (b1 : List (List ℚ)) (g : Grids) (v : List ℚ)
    (vs : List (List ℚ)) : ResState :=
  { twoBlockS4 t1 t2 b1 g v with data := [v] ++ vs }

def slice0Fill (s : ResState) : Prop :=
  ∀ r c : ℕ, s.heightVar 0 r c = -9999 ∧ s.vxVar 0 r c = -9999
    ∧ s.vyVar 0 r c = -9999 ∧ s.vavgVar 0 r c = -9999

/-! ## Concrete demonstration inputs -/

def demoEnv : GridEnv := { W := 2, H := 2, pixel := 1, xmin := 0, ymax := 6 }

def demoRaster : Raster :=
  { W := 2, H := 2, pixel := 1, xmin := 0, xmax := 2, ymax := 2
    value := fun row col => ((row * 2 + col : ℕ) : ℚ)
    noData := fun _ _ => false }

def demoFeats : List PtFeature := [⟨0, 0, 0, 5⟩, ⟨3, 4, 0, 6⟩]

def demoRow1 : List ℚ := [1/2, 9/2, 7, 8, 9, 10]

def demoRow2 : List ℚ := [1/2, 11/2, 1, 2, 3, 4]

def demoRow3 : List ℚ := [3/2, 9/2, 5, 6, 7, 8]

def demoLines2 : List ResLine :=
  [ResLine.timeLine 0, mkData demoRow1, ResLine.timeLine 10, mkData demoRow2]

def cexD1 : List (List ℚ) :=
  [[1/5, 9/2, 111, 0, 0, 0], [7/10, 9/2, 222, 0, 0, 0]]

def cexD2 : List (List ℚ) := [[1/5, 91/20, 333, 0, 0, 0]]

def amendD : List (List ℚ) :=
  [[1/5, 9/2, 11, 12, 13, 14], [17/10, 9/2, 21, 22, 23, 24]]

/-! ## Theorems -/

/-- C9: `generate_batch_file` writes `files.txt` as exactly two lines, each the
problem name, and a batch script whose four lines are exactly
`set CWDIR=%~dp0`, `cd <work_dir>`, `SPH24.exe < files.txt`, `cd %WDIR%`. -/
theorem generate_batch_file_lines (problem_name : String) (work_dir : String) :
    (generate_batch_file problem_name work_dir).1 = [problem_name, problem_name]
      ∧ (generate_batch_file problem_name work_dir).2
        = ["set CWDIR=%~dp0", "cd " ++ work_dir,
           "SPH24.exe < files.txt", "cd %WDIR%"] :=
  ⟨rfl, rfl⟩

/-- C7 counterexample: on a concrete two-feature source the `.pts` output has
5 lines, not 2 + 2, and the line right after the first two header lines is the
column-label line `header3`, not a data line: the header is three lines long,
so "exactly N data lines after a fixed 2-line header" fails. -/
theorem points_to_pts_two_line_header_cex :
    (points_to_pts demoFeats false).length ≠ 2 + demoFeats.length
      ∧ (points_to_pts demoFeats false).get? 2 = some PtsLine.header3
      ∧ isPtsDataLine PtsLine.header3 = false := by
  refine ⟨?_, rfl, rfl⟩
  show (points_to_pts demoFeats false).length ≠ 2 + demoFeats.length
  simp [points_to_pts, demoFeats]

/-- C7 amended: for a source with N features, `points_to_pts` writes a 3-line
header (the label line, the count/spacing line, the column-label line)
followed by exactly N data lines, one `x`, `y`, height line per feature. -/
theorem points_to_pts_line_structure (feats : List PtFeature) (use_z : Bool) :
    points_to_pts feats use_z
        = [PtsLine.header1,
           PtsLine.header2 feats.length (ptsSpacing feats),
           PtsLine.header3]
          ++ feats.map (fun ft =>
              PtsLine.dataLine ft.x ft.y (if use_z then ft.z else ft.attr))
      ∧ ((points_to_pts feats use_z).drop 3).length = feats.length := by
  constructor
  · rfl
  · simp [points_to_pts]

/-- C8: the grid-spacing value on the second header line is the Euclidean
distance between the points of the first two features, and this single value
is independent of all remaining features. -/
theorem points_to_pts_spacing_first_two (f1 f2 : PtFeature)
    (rest rest' : List PtFeature) (use_z : Bool) :
    spacingOf (points_to_pts (f1 :: f2 :: rest) use_z)
        = some (qgsDistance (f1.x, f1.y) (f2.x, f2.y))
      ∧ spacingOf (points_to_pts (f1 :: f2 :: rest') use_z)
        = spacingOf (points_to_pts (f1 :: f2 :: rest) use_z) := by
  constructor
  · rfl
  · rfl

theorem rewriteCount_ge (r : Raster) :
    ∀ (l : List TopLine) (i : ℕ), 4 ≤ i → rewriteCount r i l = l := by
  intro l
  induction l with
  | nil => intro i _; rfl
  | cons a t ih =>
      intro i hi
      have h3 : i ≠ 3 := by omega
      simp only [rewriteCount, if_neg h3]
      rw [ih (i + 1) (by omega)]

theorem rewriteCount_get (r : Raster) :
    ∀ (l : List TopLine) (j i : ℕ), i + j ≠ 3 →
      (rewriteCount r j l).get? i = l.get? i := by
  intro l
  induction l with
  | nil => intro j i _; rfl
  | cons a t ih =>
      intro j i hij
      cases i with
      | zero =>
          have hj : j ≠ 3 := by omega
          simp [rewriteCount, hj]
      | succ n =>
          simp only [rewriteCount, List.get?_cons_succ]
          exact ih (j + 1) n (by omega)

theorem dem_to_top_unfolded (r : Raster) :
    dem_to_top r
      = [TopLine.ictop, TopLine.ten, TopLine.npDeltx,
         TopLine.countLine (validCount r) r.pixel, TopLine.colNames]
          ++ topDataLines r ++ [TopLine.topoProps, TopLine.zero] := by
  show rewriteCount r 0 (dem_to_top_pass1 r) = _
  simp only [dem_to_top_pass1, List.cons_append, List.nil_append, rewriteCount,
    List.append_assoc]
  norm_num
  exact rewriteCount_ge r _ 5 (by omega)

theorem length_filterMap_skip {α β : Type} (p : α → Bool) (f : α → β)
    (l : List α) :
    (l.filterMap (fun a => if p a then none else some (f a))).length
      = (l.filter (fun a => !(p a))).length := by
  induction l with
  | nil => rfl
  | cons a t ih =>
      by_cases h : p a = true
      · simp [List.filterMap_cons, List.filter_cons, h, ih]
      · simp [List.filterMap_cons, List.filter_cons, h, ih]

theorem topDataLines_length (r : Raster) :
    (topDataLines r).length = validCount r := by
  simp only [topDataLines, validCount, List.length_flatMap]
  congr 1
  apply List.map_congr_left
  intro row _
  exact length_filterMap_skip _ _ _

/-- C4: the `.top` output is a fixed 5-line header, one data line per
non-no-data cell, and a fixed 2-line footer; after the second pass the count
field on the fourth header line (index 3) is the valid-cell count, the number
of data lines equals that count, every data line is an `x`, `y`, `z` triple,
and every line other than index 3 is unchanged from the first pass. -/
theorem dem_to_top_structure (r : Raster) (i : ℕ) (l : TopLine)
    (hi : i ≠ 3) (hl : l ∈ topDataLines r) :
    dem_to_top r
        = [TopLine.ictop, TopLine.ten, TopLine.npDeltx,
           TopLine.countLine (validCount r) r.pixel, TopLine.colNames]
            ++ topDataLines r ++ [TopLine.topoProps, TopLine.zero]
      ∧ (topDataLines r).length = validCount r
      ∧ (∃ x y z, l = TopLine.dataLine x y z)
      ∧ (dem_to_top r).get? i = (dem_to_top_pass1 r).get? i := by
  refine ⟨dem_to_top_unfolded r, topDataLines_length r, ?_, ?_⟩
  · rcases List.mem_flatMap.1 hl with ⟨row, _, hrow⟩
    rcases List.mem_filterMap.1 hrow with ⟨col, _, hcol⟩
    by_cases hnd : r.noData row col = true
    · simp [hnd] at hcol
    · simp only [Bool.not_eq_true] at hnd
      simp only [hnd, Bool.false_eq_true, if_false, Option.some.injEq] at hcol
      exact ⟨_, _, _, hcol.symm⟩
  · exact rewriteCount_get r _ 0 i (by omega)

/-- C3: for every valid (non-no-data) cell, `dem_to_top` emits the data line
with center coordinates `x = xmin + (col + 0.5) * pixel` and
`y = ymax - (row + 0.5) * pixel`, and (for positive pixel size) the center
`y` of any row other than 0 lies strictly south of row 0's center `y`:
row 0 is the northernmost row. -/
theorem dem_to_top_cell_coords (r : Raster) (row col row' : ℕ)
    (hr : row < r.H) (hc : col < r.W) (hnd : r.noData row col = false)
    (hp : 0 < r.pixel) (hr' : row' < r.H) (h0 : 0 < row') :
    TopLine.dataLine (r.xmin + ((col : ℚ) + 1/2) * r.pixel)
        (r.ymax - ((row : ℚ) + 1/2) * r.pixel) (r.value row col) ∈ dem_to_top r
      ∧ r.ymax - ((row' : ℚ) + 1/2) * r.pixel
          < r.ymax - ((0 : ℚ) + 1/2) * r.pixel := by
  constructor
  · rw [dem_to_top_unfolded r]
    apply List.mem_append_left
    apply List.mem_append_right
    apply List.mem_flatMap.2
    refine ⟨row, List.mem_range.2 hr, ?_⟩
    apply List.mem_filterMap.2
    refine ⟨col, List.mem_range.2 hc, ?_⟩
    simp [hnd, cellX, cellY]
  · have h1 : (1 : ℚ) ≤ (row' : ℚ) := by exact_mod_cast h0
    have : ((0 : ℚ) + 1/2) * r.pixel < ((row' : ℚ) + 1/2) * r.pixel := by
      nlinarith
    linarith

theorem parseFields_map_some (v : List ℚ) :
    parseFields (v.map some) = some v := by
  induction v with
  | nil => rfl
  | cons a t ih => simp [List.map_cons, parseFields, ih]

theorem parseFields_none {fields : List (Option ℚ)} (h : none ∈ fields) :
    parseFields fields = none := by
  induction fields with
  | nil => cases h
  | cons a t ih =>
      rcases List.mem_cons.1 h with h1 | h2
      · rw [← h1]
        rfl
      · cases a with
        | none => rfl
        | some q => simp [parseFields, ih h2]

theorem resStep_time (env : GridEnv) (s : ResState) (t : ℚ) :
    resStep env s (ResLine.timeLine t)
      = some { s with
          blockRead := if s.sphTime.isSome then true else s.blockRead
          sphTime := some t
          nDates := s.nDates + 1 } := rfl

theorem resStep_data_false (env : GridEnv) (s : ResState)
    (fields : List (Option ℚ)) (hbr : s.blockRead = false) :
    resStep env s (ResLine.dataLine fields)
      = match parseFields fields with
        | some v => some { s with data := s.data ++ [v] }
        | none => none := by
  simp [resStep, hbr]

theorem resStep_data_true (env : GridEnv) (s : ResState)
    (fields : List (Option ℚ)) (hbr : s.blockRead = true) :
    resStep env s (ResLine.dataLine fields)
      = match flushState env s with
        | some s1 =>
            match parseFields fields with
            | some v => some { s1 with data := s1.data ++ [v] }
            | none => none
        | none => none := by
  show (match (if s.blockRead then flushState env s else some s) with
        | some s1 =>
            match parseFields fields with
            | some v => some { s1 with data := s1.data ++ [v] }
            | none => none
        | none => none) = _
  rw [hbr, if_pos rfl]

theorem resRunFrom_nil (env : GridEnv) (s : ResState) :
    resRunFrom env s [] = some s := rfl

theorem resRunFrom_cons (env : GridEnv) (s : ResState) (l : ResLine)
    (t : List ResLine) :
    resRunFrom env s (l :: t)
      = (resStep env s l).bind (fun s1 => resRunFrom env s1 t) := by
  rw [resRunFrom, List.foldlM_cons]
  rfl

theorem resRunFrom_append (env : GridEnv) (s : ResState)
    (l1 l2 : List ResLine) :
    resRunFrom env s (l1 ++ l2)
      = (resRunFrom env s l1).bind (fun s1 => resRunFrom env s1 l2) := by
  rw [resRunFrom, List.foldlM_append]
  rfl

theorem runFrom_map_data (env : GridEnv) :
    ∀ (rows : List (List ℚ)) (s : ResState), s.blockRead = false →
      resRunFrom env s (rows.map mkData)
        = some { s with data := s.data ++ rows } := by
  intro rows
  induction rows with
  | nil =>
      intro s _
      simp [resRunFrom_nil]
  | cons v t ih =>
      intro s hbr
      rw [List.map_cons, resRunFrom_cons, mkData,
        resStep_data_false env s _ hbr, parseFields_map_some]
      simp only [Option.some_bind]
      rw [ih { s with data := s.data ++ [v] } (by exact hbr)]
      simp [List.append_assoc]

theorem resStep_slice0 (env : GridEnv) (s s' : ResState) (l : ResLine)
    (h : slice0Fill s) (hs : resStep env s l = some s') : slice0Fill s' := by
  cases l with
  | timeLine t =>
      rw [resStep_time] at hs
      obtain rfl := Option.some.inj hs
      intro r c
      exact h r c
  | dataLine fields =>
      have hafter : ∀ s1 : ResState, slice0Fill s1 →
          (match parseFields fields with
            | some v => some { s1 with data := s1.data ++ [v] }
            | none => none) = some s' → slice0Fill s' := by
        intro s1 h1 hm
        cases hmm : parseFields fields with
        | none => rw [hmm] at hm; cases hm
        | some v =>
            rw [hmm] at hm
            obtain rfl := Option.some.inj hm
            intro r c
            exact h1 r c
      cases hbr : s.blockRead with
      | false =>
          rw [resStep_data_false env s fields hbr] at hs
          exact hafter s h hs
      | true =>
          rw [resStep_data_true env s fields hbr] at hs
          cases hfl : flushState env s with
          | none => rw [hfl] at hs; cases hs
          | some sB =>
              rw [hfl] at hs
              have hB : slice0Fill sB := by
                rw [flushState] at hfl
                cases hfd : flushData env s.data s.grids with
                | none => rw [hfd] at hfl; cases hfl
                | some g =>
                    rw [hfd] at hfl
                    obtain rfl := Option.some.inj hfl
                    intro r c
                    have hne : (0 : ℕ) ≠ s.c + 1 := (Nat.succ_ne_zero s.c).symm
                    simp only [if_neg hne]
                    exact h r c
              exact hafter sB hB hs

theorem resRunFrom_slice0 (env : GridEnv) :
    ∀ (lines : List ResLine) (s s' : ResState), slice0Fill s →
      resRunFrom env s lines = some s' → slice0Fill s' := by
  intro lines
  induction lines with
  | nil =>
      intro s s' h hs
      rw [resRunFrom_nil] at hs
      obtain rfl := Option.some.inj hs
      exact h
  | cons l t ih =>
      intro s s' h hs
      rw [resRunFrom_cons] at hs
      cases hstep : resStep env s l with
      | none => rw [hstep] at hs; cases hs
      | some s1 =>
          rw [hstep] at hs
          simp only [Option.some_bind] at hs
          exact ih s1 s' (resStep_slice0 env s s1 l h hstep) hs

/-- C10: a data line containing a non-numeric field makes the whole
conversion abort at the unguarded `float` conversion: whatever comes before
or after the malformed line, `res_to_netcdf`'s parse run produces no result,
so the line is not skipped and nothing is retried. -/
theorem res_malformed_line_aborts (env : GridEnv) (pre suf : List ResLine)
    (fields : List (Option ℚ)) (hbad : none ∈ fields) :
    resRun env (pre ++ ResLine.dataLine fields :: suf) = none := by
  rw [resRun, resRunFrom_append]
  cases hpre : resRun env pre with
  | none => rw [resRun] at hpre; rw [hpre]; rfl
  | some s =>
      rw [resRun] at hpre
      rw [hpre]
      simp only [Option.some_bind]
      rw [resRunFrom_cons]
      have hstep : resStep env s (ResLine.dataLine fields) = none := by
        cases hbr : s.blockRead with
        | false =>
            rw [resStep_data_false env s fields hbr, parseFields_none hbad]
        | true =>
            rw [resStep_data_true env s fields hbr]
            cases hfl : flushState env s with
            | none => rfl
            | some sB =>
                rw [parseFields_none hbad]
      rw [hstep]
      rfl

/-- C10 witness: a one-line file whose only data line has a non-numeric
second field aborts the conversion. -/
theorem res_malformed_line_aborts_witness :
    resRun demoEnv [ResLine.dataLine [some 1, none]] = none :=
  res_malformed_line_aborts demoEnv [] [] [some 1, none] (by decide)

/-- C2: whenever the conversion succeeds (and in particular produces a
non-empty time dimension), time slice 0 of each of the variables Height, Vx,
Vy and Vavg holds only the fill value -9999: the counter `c` is incremented
to 1 before the first flushed block is stored, so index 0 is never assigned. -/
theorem res_first_slice_is_fill (env : GridEnv) (lines : List ResLine)
    (r c : ℕ) (hr : r < env.H) (hc : c < env.W)
    (hsome : (resRun env lines).isSome = true)
    (hne : 0 < outLen env lines) :
    outHeight env lines 0 r c = -9999 ∧ outVx env lines 0 r c = -9999
      ∧ outVy env lines 0 r c = -9999 ∧ outVavg env lines 0 r c = -9999 := by
  obtain ⟨s, hs⟩ := Option.isSome_iff_exists.1 hsome
  have h0 : slice0Fill initResState := fun r c => ⟨rfl, rfl, rfl, rfl⟩
  have hF := resRunFrom_slice0 env lines initResState s h0 hs
  have hrc := hF r c
  simp only [outHeight, outVx, outVy, outVavg, res_to_netcdf, hs,
    Option.map_some, resOutput]
  exact hrc


theorem chunkByKey_sound :
    ∀ (l : List (List ℚ)) (k : ℚ) (G : List (List ℚ)),
      (k, G) ∈ chunkByKey l → ∀ i ∈ G, keyD i = k ∧ i ∈ l := by
  intro l
  induction l with
  | nil => intro k G h; cases h
  | cons r rs ih =>
      intro k G hmem i hi
      rw [chunkByKey] at hmem
      cases hc : chunkByKey rs with
      | nil =>
          rw [hc] at hmem
          simp only [chunkPush, List.mem_singleton, Prod.mk.injEq] at hmem
          obtain ⟨hk, hG⟩ := hmem
          subst hG
          rcases List.mem_singleton.1 hi with rfl
          exact ⟨hk.symm, List.mem_cons_self _ _⟩
      | cons p rest =>
          obtain ⟨k0, g0⟩ := p
          rw [hc] at hmem
          by_cases hkey : keyD r = k0
          · rw [chunkPush, if_pos hkey] at hmem
            rcases List.mem_cons.1 hmem with h1 | h2
            · injection h1 with hk hG
              subst hG
              rcases List.mem_cons.1 hi with rfl | hig
              · exact ⟨hkey.trans hk.symm, List.mem_cons_self _ _⟩
              · have := ih k0 g0 (hc ▸ List.mem_cons_self _ _) i hig
                exact ⟨this.1.trans hk.symm, List.mem_cons_of_mem _ this.2⟩
            · have := ih k G (hc ▸ List.mem_cons_of_mem _ h2) i hi
              exact ⟨this.1, List.mem_cons_of_mem _ this.2⟩
          · rw [chunkPush, if_neg hkey] at hmem
            rcases List.mem_cons.1 hmem with h1 | h2
            · injection h1 with hk hG
              subst hG
              rcases List.mem_singleton.1 hi with rfl
              exact ⟨hk.symm, List.mem_cons_self _ _⟩
            · have := ih k G (hc ▸ h2) i hi
              exact ⟨this.1, List.mem_cons_of_mem _ this.2⟩

theorem chunkByKey_head (r : List ℚ) (rs : List (List ℚ)) :
    ∃ G rest, chunkByKey (r :: rs) = (keyD r, G) :: rest ∧ r ∈ G := by
  rw [chunkByKey]
  cases hc : chunkByKey rs with
  | nil => exact ⟨[r], [], rfl, List.mem_singleton.2 rfl⟩
  | cons p rest =>
      obtain ⟨k0, g0⟩ := p
      by_cases hkey : keyD r = k0
      · refine ⟨r :: g0, rest, ?_, List.mem_cons_self _ _⟩
        rw [chunkPush, if_pos hkey, hkey]
      · refine ⟨[r], (k0, g0) :: rest, ?_, List.mem_singleton.2 rfl⟩
        rw [chunkPush, if_neg hkey]

theorem chunkByKey_complete :
    ∀ (l : List (List ℚ)) (i : List ℚ), i ∈ l →
      ∃ G, (keyD i, G) ∈ chunkByKey l ∧ i ∈ G := by
  intro l
  induction l with
  | nil => intro i hi; cases hi
  | cons r rs ih =>
      intro i hi
      rcases List.mem_cons.1 hi with rfl | hirs
      · obtain ⟨G, rest, heq, hmem⟩ := chunkByKey_head i rs
        exact ⟨G, heq ▸ List.mem_cons_self _ _, hmem⟩
      · obtain ⟨G, hG, hiG⟩ := ih i hirs
        rw [chunkByKey]
        cases hc : chunkByKey rs with
        | nil => rw [hc] at hG; cases hG
        | cons p rest =>
            obtain ⟨k0, g0⟩ := p
            rw [hc] at hG
            by_cases hkey : keyD r = k0
            · rw [chunkPush, if_pos hkey]
              rcases List.mem_cons.1 hG with h1 | h2
              · injection h1 with hk hGg
                subst hGg
                refine ⟨r :: G, ?_, List.mem_cons_of_mem _ hiG⟩
                rw [hk]
                exact List.mem_cons_self _ _
              · exact ⟨G, List.mem_cons_of_mem _ h2, hiG⟩
            · rw [chunkPush, if_neg hkey]
              exact ⟨G, List.mem_cons_of_mem _ hG, hiG⟩

theorem chunkByKey_nonempty :
    ∀ (l : List (List ℚ)) (k : ℚ) (G : List (List ℚ)),
      (k, G) ∈ chunkByKey l → ∃ i, i ∈ G := by
  intro l
  induction l with
  | nil => intro k G h; cases h
  | cons r rs ih =>
      intro k G hmem
      rw [chunkByKey] at hmem
      cases hc : chunkByKey rs with
      | nil =>
          rw [hc] at hmem
          simp only [chunkPush, List.mem_singleton, Prod.mk.injEq] at hmem
          exact ⟨r, by rw [hmem.2]; exact List.mem_singleton.2 rfl⟩
      | cons p rest =>
          obtain ⟨k0, g0⟩ := p
          rw [hc] at hmem
          by_cases hkey : keyD r = k0
          · rw [chunkPush, if_pos hkey] at hmem
            rcases List.mem_cons.1 hmem with h1 | h2
            · injection h1 with hk hG
              exact ⟨r, by rw [hG]; exact List.mem_cons_self _ _⟩
            · exact ih k G (hc ▸ List.mem_cons_of_mem _ h2)
          · rw [chunkPush, if_neg hkey] at hmem
            rcases List.mem_cons.1 hmem with h1 | h2
            · injection h1 with hk hG
              exact ⟨r, by rw [hG]; exact List.mem_singleton.2 rfl⟩
            · exact ih k G (hc ▸ h2)

theorem chunkByKey_keys_distinct :
    ∀ (l : List (List ℚ)), List.Pairwise keyLE l →
      (chunkByKey l).Pairwise (fun p q => p.1 ≠ q.1) := by
  intro l
  induction l with
  | nil => intro _; exact List.Pairwise.nil
  | cons r rs ih =>
      intro hp
      rw [List.pairwise_cons] at hp
      obtain ⟨hr, hrs⟩ := hp
      have ihp := ih hrs
      rw [chunkByKey]
      cases hc : chunkByKey rs with
      | nil => exact List.pairwise_singleton _ _
      | cons p rest =>
          obtain ⟨k0, g0⟩ := p
          rw [hc] at ihp
          by_cases hkey : keyD r = k0
          · rw [chunkPush, if_pos hkey]
            rw [List.pairwise_cons] at ihp ⊢
            exact ⟨fun q hq => ihp.1 q hq, ihp.2⟩
          · rw [chunkPush, if_neg hkey]
            rw [List.pairwise_cons]
            refine ⟨?_, ihp⟩
            intro q hq heq
            have hq' : q ∈ chunkByKey rs := hc ▸ hq
            obtain ⟨i, hiq⟩ := chunkByKey_nonempty rs q.1 q.2 hq'
            obtain ⟨hki, hirs⟩ := chunkByKey_sound rs q.1 q.2 hq' i hiq
            cases hrse : rs with
            | nil => rw [hrse] at hc; cases hc
            | cons x xs =>
                obtain ⟨Gx, restx, hcx, _⟩ := chunkByKey_head x xs
                rw [hrse] at hc
                rw [hcx] at hc
                injection hc with hc1 hc2
                injection hc1 with hk0 hG0
                have hrx : keyD r ≤ keyD x := hr x (by rw [hrse]; exact List.mem_cons_self _ _)
                have hxi : keyD x ≤ keyD i := by
                  rw [hrse] at hirs
                  rcases List.mem_cons.1 hirs with rfl | hixs
                  · exact le_refl _
                  · rw [hrse] at hrs
                    rw [List.pairwise_cons] at hrs
                    exact hrs.1 i hixs
                have : keyD r = keyD x := by
                  have hieq : keyD i = keyD r := by rw [hki, ← heq]
                  have := le_antisymm hrx (hieq ▸ hxi)
                  exact this
                exact hkey (this.trans hk0)

theorem dictLookup_cons (p : ℚ × List (List ℚ))
    (cs : List (ℚ × List (List ℚ))) (y : ℚ) :
    dictLookup (p :: cs) y
      = match dictLookup cs y with
        | some G => some G
        | none => if p.1 = y then some p.2 else none := by
  unfold dictLookup
  rw [List.reverse_cons, List.find?_append]
  cases h : cs.reverse.find? (fun q => decide (q.1 = y)) with
  | some q => simp [h, Option.or]
  | none =>
      simp only [h, Option.none_or, Option.map_none]
      rw [List.find?]
      by_cases hp : p.1 = y
      · simp [hp]
      · simp [hp]

theorem dictLookup_none :
    ∀ (assoc : List (ℚ × List (List ℚ))) (y : ℚ),
      (∀ q ∈ assoc, q.1 ≠ y) → dictLookup assoc y = none := by
  intro assoc
  induction assoc with
  | nil => intro y _; rfl
  | cons p cs ih =>
      intro y h
      rw [dictLookup_cons, ih y (fun q hq => h q (List.mem_cons_of_mem _ hq))]
      simp [h p (List.mem_cons_self _ _)]

theorem dictLookup_mem :
    ∀ (assoc : List (ℚ × List (List ℚ))) (y : ℚ) (G : List (List ℚ)),
      assoc.Pairwise (fun p q => p.1 ≠ q.1) → (y, G) ∈ assoc →
      dictLookup assoc y = some G := by
  intro assoc
  induction assoc with
  | nil => intro y G _ hm; cases hm
  | cons p cs ih =>
      intro y G hd hm
      rw [List.pairwise_cons] at hd
      rw [dictLookup_cons]
      rcases List.mem_cons.1 hm with h1 | h2
      · have hnone : dictLookup cs y = none := by
          apply dictLookup_none
          intro q hq
          have := hd.1 q hq
          rw [← h1] at this
          exact fun hqy => this hqy.symm
        rw [hnone, ← h1]
        simp
      · rw [ih y G hd.2 h2]

theorem dictLookup_sound (assoc : List (ℚ × List (List ℚ))) (y : ℚ)
    (G : List (List ℚ)) (h : dictLookup assoc y = some G) :
    (y, G) ∈ assoc := by
  unfold dictLookup at h
  cases hf : assoc.reverse.find? (fun q => decide (q.1 = y)) with
  | none => rw [hf] at h; cases h
  | some q =>
      rw [hf] at h
      have hq1 : q.1 = y := by
        have := List.find?_some hf
        exact of_decide_eq_true this
      have hqm : q ∈ assoc := List.mem_reverse.1 (List.mem_of_find?_eq_some hf)
      have h2 : q.2 = G := Option.some.inj h
      have : q = (y, G) := by
        rcases q with ⟨qk, qv⟩
        have e1 : qk = y := hq1
        have e2 : qv = G := h2
        rw [e1, e2]
      exact this ▸ hqm

theorem writeSample_some (env : GridEnv) (row : ℕ) (g g' : Grids)
    (i : List ℚ) (hw : writeSample env row g i = some g') :
    ∃ hv vxv vyv vav col,
      i.get? 2 = some hv ∧ i.get? 3 = some vxv
        ∧ i.get? 4 = some vyv ∧ i.get? 5 = some vav
        ∧ npIndex env.W (colIndex env i) = some col
        ∧ g' = ⟨gridSet g.h row col (ratTrunc hv),
                gridSet g.vX row col (ratTrunc vxv),
                gridSet g.vY row col (ratTrunc vyv),
                gridSet g.vAvg row col (ratTrunc vav)⟩ := by
  unfold writeSample at hw
  cases h0 : i.get? 0 with
  | none => rw [h0] at hw; cases hw
  | some x =>
  rw [h0] at hw
  simp only [Option.some_bind] at hw
  cases h2 : i.get? 2 with
  | none => rw [h2] at hw; cases hw
  | some hv =>
  rw [h2] at hw
  simp only [Option.some_bind] at hw
  cases h3 : i.get? 3 with
  | none => rw [h3] at hw; cases hw
  | some vxv =>
  rw [h3] at hw
  simp only [Option.some_bind] at hw
  cases h4 : i.get? 4 with
  | none => rw [h4] at hw; cases hw
  | some vyv =>
  rw [h4] at hw
  simp only [Option.some_bind] at hw
  cases h5 : i.get? 5 with
  | none => rw [h5] at hw; cases hw
  | some vav =>
  rw [h5] at hw
  simp only [Option.some_bind] at hw
  have hx : i.getD 0 0 = x := by
    rw [List.getD_eq_get?, h0]
    rfl
  cases hnp : npIndex env.W (ratTrunc ((x - env.xmin) / env.pixel)) with
  | none => rw [hnp] at hw; cases hw
  | some col =>
      rw [hnp] at hw
      simp only [Option.some_bind] at hw
      refine ⟨hv, vxv, vyv, vav, col, rfl, rfl, rfl, rfl, ?_, ?_⟩
      · rw [colIndex, hx]
        exact hnp
      · exact (Option.some.inj hw).symm

theorem writeFold_preserved (env : GridEnv) (row : ℕ) :
    ∀ (samples : List (List ℚ)) (gr g' : Grids),
      samples.foldlM (writeSample env row) gr = some g' →
      ∀ (r c : ℕ),
        (∀ i ∈ samples, row ≠ r ∨ npIndex env.W (colIndex env i) ≠ some c) →
        g'.h r c = gr.h r c ∧ g'.vX r c = gr.vX r c
          ∧ g'.vY r c = gr.vY r c ∧ g'.vAvg r c = gr.vAvg r c := by
  intro samples
  induction samples with
  | nil =>
      intro gr g' hf r c _
      rw [List.foldlM_nil] at hf
      obtain rfl := Option.some.inj hf
      exact ⟨rfl, rfl, rfl, rfl⟩
  | cons i t ih =>
      intro gr g' hf r c hsafe
      rw [List.foldlM_cons] at hf
      cases hw : writeSample env row gr i with
      | none => rw [hw] at hf; cases hf
      | some g1 =>
          rw [hw] at hf
          have hf2 : t.foldlM (writeSample env row) g1 = some g' := hf
          have ht := ih g1 g' hf2 r c
            (fun j hj => hsafe j (List.mem_cons_of_mem _ hj))
          obtain ⟨hv, vxv, vyv, vav, col, _, _, _, _, hnp, hg1⟩ :=
            writeSample_some env row gr g1 i hw
          have hcell : ¬ (r = row ∧ c = col) := by
            rcases hsafe i (List.mem_cons_self _ _) with hrr | hcc
            · intro hand; exact hrr hand.1.symm
            · intro hand
              apply hcc
              rw [hnp, hand.2]
          have hpres : g1.h r c = gr.h r c ∧ g1.vX r c = gr.vX r c
              ∧ g1.vY r c = gr.vY r c ∧ g1.vAvg r c = gr.vAvg r c := by
            rw [hg1]
            simp [gridSet, hcell]
          exact ⟨ht.1.trans hpres.1, ht.2.1.trans hpres.2.1,
            ht.2.2.1.trans hpres.2.2.1, ht.2.2.2.trans hpres.2.2.2⟩

theorem flushRow_preserved (env : GridEnv)
    (groups : List (ℚ × List (List ℚ))) (gr g' : Grids) (row r c : ℕ)
    (hrun : flushRow env groups gr row = some g')
    (hsafe : ∀ samples, dictLookup groups (rowKey env row) = some samples →
      ∀ i ∈ samples, row ≠ r ∨ npIndex env.W (colIndex env i) ≠ some c) :
    g'.h r c = gr.h r c ∧ g'.vX r c = gr.vX r c
      ∧ g'.vY r c = gr.vY r c ∧ g'.vAvg r c = gr.vAvg r c := by
  unfold flushRow at hrun
  cases hl : dictLookup groups (rowKey env row) with
  | none =>
      rw [hl] at hrun
      obtain rfl := Option.some.inj hrun
      exact ⟨rfl, rfl, rfl, rfl⟩
  | some samples =>
      rw [hl] at hrun
      exact writeFold_preserved env row samples gr g' hrun r c
        (hsafe samples hl)

theorem rowsFold_preserved (env : GridEnv)
    (groups : List (ℚ × List (List ℚ))) :
    ∀ (rows : List ℕ) (gr g' : Grids),
      rows.foldlM (flushRow env groups) gr = some g' →
      ∀ (r c : ℕ),
        (∀ row ∈ rows, ∀ samples,
          dictLookup groups (rowKey env row) = some samples →
          ∀ i ∈ samples, row ≠ r ∨ npIndex env.W (colIndex env i) ≠ some c) →
        g'.h r c = gr.h r c ∧ g'.vX r c = gr.vX r c
          ∧ g'.vY r c = gr.vY r c ∧ g'.vAvg r c = gr.vAvg r c := by
  intro rows
  induction rows with
  | nil =>
      intro gr g' hf r c _
      rw [List.foldlM_nil] at hf
      obtain rfl := Option.some.inj hf
      exact ⟨rfl, rfl, rfl, rfl⟩
  | cons row rest ih =>
      intro gr g' hf r c hsafe
      rw [List.foldlM_cons] at hf
      cases hrow : flushRow env groups gr row with
      | none => rw [hrow] at hf; cases hf
      | some g1 =>
          rw [hrow] at hf
          have hf2 : rest.foldlM (flushRow env groups) g1 = some g' := hf
          have ht := ih g1 g' hf2 r c
            (fun rw2 h2 => hsafe rw2 (List.mem_cons_of_mem _ h2))
          have hp := flushRow_preserved env groups gr g1 row r c hrow
            (hsafe row (List.mem_cons_self _ _))
          exact ⟨ht.1.trans hp.1, ht.2.1.trans hp.2.1,
            ht.2.2.1.trans hp.2.2.1, ht.2.2.2.trans hp.2.2.2⟩

theorem flush_lookup_sound (env : GridEnv) (D : List (List ℚ)) (row : ℕ)
    (samples : List (List ℚ))
    (hl : dictLookup (chunkByKey (sortData D)) (rowKey env row)
      = some samples) :
    ∀ i ∈ samples, keyD i = rowKey env row ∧ i ∈ D := by
  have hmem := dictLookup_sound _ _ _ hl
  intro i hi
  obtain ⟨hk, hm⟩ := chunkByKey_sound (sortData D) _ _ hmem i hi
  refine ⟨hk, ?_⟩
  have hperm := List.perm_insertionSort keyLE D
  exact hperm.mem_iff.1 hm

theorem flushData_untouched (env : GridEnv) (D : List (List ℚ))
    (g0 g : Grids) (r c : ℕ)
    (hrun : flushData env D g0 = some g)
    (hnw : ¬ writesTo env D r c) :
    g.h r c = g0.h r c ∧ g.vX r c = g0.vX r c
      ∧ g.vY r c = g0.vY r c ∧ g.vAvg r c = g0.vAvg r c := by
  unfold flushData at hrun
  by_cases hguard : D.all (fun row => decide (2 ≤ row.length)) = true
  · rw [if_pos hguard] at hrun
    apply rowsFold_preserved env _ (List.range env.H) g0 g hrun r c
    intro row _ samples hl i hi
    by_cases hr : row = r
    · right
      intro hcc
      apply hnw
      obtain ⟨hk, hmem⟩ := flush_lookup_sound env D row samples hl i hi
      exact ⟨i, hmem, by rw [hk, hr], by rw [hcc]⟩
    · exact Or.inl hr
  · rw [if_neg hguard] at hrun
    cases hrun

theorem writeFold_sets (env : GridEnv) (row : ℕ) (s1 : List ℚ) (c1 : ℕ)
    (hcol : npIndex env.W (colIndex env s1) = some c1) :
    ∀ (samples : List (List ℚ)) (gr g' : Grids),
      samples.foldlM (writeSample env row) gr = some g' →
      s1 ∈ samples →
      (∀ j ∈ samples, npIndex env.W (colIndex env j) = some c1 → j = s1) →
      g'.h row c1 = ratTrunc (s1.getD 2 0)
        ∧ g'.vX row c1 = ratTrunc (s1.getD 3 0)
        ∧ g'.vY row c1 = ratTrunc (s1.getD 4 0)
        ∧ g'.vAvg row c1 = ratTrunc (s1.getD 5 0) := by
  intro samples
  induction samples with
  | nil => intro gr g' _ hmem _; cases hmem
  | cons j t ih =>
      intro gr g' hf hmem huniq
      rw [List.foldlM_cons] at hf
      cases hw : writeSample env row gr j with
      | none => rw [hw] at hf; cases hf
      | some g1 =>
          rw [hw] at hf
          have hf2 : t.foldlM (writeSample env row) g1 = some g' := hf
          by_cases hj : j = s1
          · subst hj
            by_cases hjt : j ∈ t
            · exact ih g1 g' hf2 hjt
                (fun i hi => huniq i (List.mem_cons_of_mem _ hi))
            · have hsafe : ∀ i ∈ t,
                  row ≠ row ∨ npIndex env.W (colIndex env i) ≠ some c1 := by
                intro i hi
                right
                intro hcc
                have := huniq i (List.mem_cons_of_mem _ hi) hcc
                rw [this] at hi
                exact hjt hi
              have hp := writeFold_preserved env row t g1 g' hf2 row c1 hsafe
              obtain ⟨hv, vxv, vyv, vav, col, e2, e3, e4, e5, hnp, hg1⟩ :=
                writeSample_some env row gr g1 j hw
              have hcc1 : col = c1 :=
                Option.some.inj ((hnp.symm).trans hcol)
              have hval2 : j.getD 2 0 = hv := by
                rw [List.getD_eq_get?, e2]; rfl
              have hval3 : j.getD 3 0 = vxv := by
                rw [List.getD_eq_get?, e3]; rfl
              have hval4 : j.getD 4 0 = vyv := by
                rw [List.getD_eq_get?, e4]; rfl
              have hval5 : j.getD 5 0 = vav := by
                rw [List.getD_eq_get?, e5]; rfl
              have hand : row = row ∧ c1 = col := ⟨rfl, hcc1.symm⟩
              refine ⟨?_, ?_, ?_, ?_⟩
              · rw [hp.1, hg1]
                show gridSet gr.h row col (ratTrunc hv) row c1 = _
                rw [gridSet, if_pos hand, hval2]
              · rw [hp.2.1, hg1]
                show gridSet gr.vX row col (ratTrunc vxv) row c1 = _
                rw [gridSet, if_pos hand, hval3]
              · rw [hp.2.2.1, hg1]
                show gridSet gr.vY row col (ratTrunc vyv) row c1 = _
                rw [gridSet, if_pos hand, hval4]
              · rw [hp.2.2.2, hg1]
                show gridSet gr.vAvg row col (ratTrunc vav) row c1 = _
                rw [gridSet, if_pos hand, hval5]
          · have hs1t : s1 ∈ t := by
              rcases List.mem_cons.1 hmem with h1 | h2
              · exact absurd h1.symm hj
              · exact h2
            exact ih g1 g' hf2 hs1t
              (fun i hi => huniq i (List.mem_cons_of_mem _ hi))

theorem rowsFold_sets (env : GridEnv)
    (groups : List (ℚ × List (List ℚ))) (r c1 : ℕ) (s1 : List ℚ)
    (G : List (List ℚ))
    (hcol : npIndex env.W (colIndex env s1) = some c1)
    (hlook : dictLookup groups (rowKey env r) = some G)
    (hs1G : s1 ∈ G)
    (huniq : ∀ j ∈ G, npIndex env.W (colIndex env j) = some c1 → j = s1) :
    ∀ (rows : List ℕ) (gr g' : Grids),
      rows.foldlM (flushRow env groups) gr = some g' →
      rows.Nodup → r ∈ rows →
      g'.h r c1 = ratTrunc (s1.getD 2 0)
        ∧ g'.vX r c1 = ratTrunc (s1.getD 3 0)
        ∧ g'.vY r c1 = ratTrunc (s1.getD 4 0)
        ∧ g'.vAvg r c1 = ratTrunc (s1.getD 5 0) := by
  intro rows
  induction rows with
  | nil => intro gr g' _ _ hmem; cases hmem
  | cons row rest ih =>
      intro gr g' hf hnd hmem
      rw [List.foldlM_cons] at hf
      cases hrow : flushRow env groups gr row with
      | none => rw [hrow] at hf; cases hf
      | some g1 =>
          rw [hrow] at hf
          have hf2 : rest.foldlM (flushRow env groups) g1 = some g' := hf
          rw [List.nodup_cons] at hnd
          by_cases hrr : row = r
          · subst hrr
            have hset : g1.h row c1 = ratTrunc (s1.getD 2 0)
                ∧ g1.vX row c1 = ratTrunc (s1.getD 3 0)
                ∧ g1.vY row c1 = ratTrunc (s1.getD 4 0)
                ∧ g1.vAvg row c1 = ratTrunc (s1.getD 5 0) := by
              unfold flushRow at hrow
              rw [hlook] at hrow
              exact writeFold_sets env row s1 c1 hcol G gr g1 hrow hs1G huniq
            have hsafe : ∀ row2 ∈ rest, ∀ samples,
                dictLookup groups (rowKey env row2) = some samples →
                ∀ i ∈ samples,
                  row2 ≠ row ∨ npIndex env.W (colIndex env i) ≠ some c1 := by
              intro row2 h2 samples _ i _
              left
              intro heq
              rw [heq] at h2
              exact hnd.1 h2
            have hp := rowsFold_preserved env groups rest g1 g' hf2 row c1 hsafe
            exact ⟨hp.1.trans hset.1, hp.2.1.trans hset.2.1,
              hp.2.2.1.trans hset.2.2.1, hp.2.2.2.trans hset.2.2.2⟩
          · have hmem2 : r ∈ rest := by
              rcases List.mem_cons.1 hmem with h1 | h2
              · exact absurd h1.symm hrr
              · exact h2
            exact ih g1 g' hf2 hnd.2 hmem2

theorem flushData_sets (env : GridEnv) (D : List (List ℚ))
    (g0 g : Grids) (row c1 : ℕ) (s1 : List ℚ)
    (hrowH : row < env.H)
    (hs1 : s1 ∈ D) (hy1 : keyD s1 = rowKey env row)
    (hc1 : npIndex env.W (colIndex env s1) = some c1)
    (hu1 : ∀ j ∈ D, keyD j = rowKey env row →
      npIndex env.W (colIndex env j) = some c1 → j = s1)
    (hrun : flushData env D g0 = some g) :
    g.h row c1 = ratTrunc (s1.getD 2 0)
      ∧ g.vX row c1 = ratTrunc (s1.getD 3 0)
      ∧ g.vY row c1 = ratTrunc (s1.getD 4 0)
      ∧ g.vAvg row c1 = ratTrunc (s1.getD 5 0) := by
  have hsorted : List.Pairwise keyLE (sortData D) :=
    List.sorted_insertionSort keyLE D
  have hs1s : s1 ∈ sortData D :=
    (List.perm_insertionSort keyLE D).mem_iff.2 hs1
  obtain ⟨G, hGmem, hs1G⟩ := chunkByKey_complete (sortData D) s1 hs1s
  have hdist := chunkByKey_keys_distinct (sortData D) hsorted
  have hlook : dictLookup (chunkByKey (sortData D)) (rowKey env row)
      = some G := by
    rw [← hy1]
    exact dictLookup_mem (chunkByKey (sortData D)) (keyD s1) G hdist hGmem
  have huniqG : ∀ j ∈ G, npIndex env.W (colIndex env j) = some c1 →
      j = s1 := by
    intro j hj hcc
    obtain ⟨hk, hmem⟩ := flush_lookup_sound env D row G hlook j hj
    exact hu1 j hmem hk hcc
  unfold flushData at hrun
  by_cases hguard : D.all (fun r2 => decide (2 ≤ r2.length)) = true
  · rw [if_pos hguard] at hrun
    exact rowsFold_sets env (chunkByKey (sortData D)) row c1 s1 G hc1 hlook
      hs1G huniqG (List.range env.H) g0 g hrun (List.nodup_range env.H)
      (List.mem_range.2 hrowH)
  · rw [if_neg hguard] at hrun
    cases hrun

theorem flushState_blockRead (env : GridEnv) (s sB : ResState)
    (h : flushState env s = some sB) : sB.blockRead = false := by
  unfold flushState at h
  cases hfd : flushData env s.data s.grids with
  | none => rw [hfd] at h; cases h
  | some g =>
      rw [hfd] at h
      obtain rfl := Option.some.inj h
      rfl

theorem resStep_data_pair (env : GridEnv) (s a b : ResState)
    (f1 f2 : List (Option ℚ))
    (ha : resStep env s (ResLine.dataLine f1) = some a)
    (hb : resStep env s (ResLine.dataLine f2) = some b) :
    resOutput a = resOutput b ∧ a.blockRead = false ∧ b.blockRead = false := by
  cases hbr : s.blockRead with
  | false =>
      rw [resStep_data_false env s f1 hbr] at ha
      rw [resStep_data_false env s f2 hbr] at hb
      cases hm1 : parseFields f1 with
      | none => rw [hm1] at ha; cases ha
      | some v1 =>
          rw [hm1] at ha
          obtain rfl := Option.some.inj ha
          cases hm2 : parseFields f2 with
          | none => rw [hm2] at hb; cases hb
          | some v2 =>
              rw [hm2] at hb
              obtain rfl := Option.some.inj hb
              exact ⟨rfl, hbr, hbr⟩
  | true =>
      rw [resStep_data_true env s f1 hbr] at ha
      rw [resStep_data_true env s f2 hbr] at hb
      cases hfl : flushState env s with
      | none => rw [hfl] at ha; cases ha
      | some sB =>
          rw [hfl] at ha
          rw [hfl] at hb
          have hBbr := flushState_blockRead env s sB hfl
          cases hm1 : parseFields f1 with
          | none => rw [hm1] at ha; cases ha
          | some v1 =>
              rw [hm1] at ha
              obtain rfl := Option.some.inj ha
              cases hm2 : parseFields f2 with
              | none => rw [hm2] at hb; cases hb
              | some v2 =>
                  rw [hm2] at hb
                  obtain rfl := Option.some.inj hb
                  exact ⟨rfl, hBbr, hBbr⟩

theorem runFrom_data_output (env : GridEnv) :
    ∀ (ls : List ResLine), (∀ l ∈ ls, l.isData = true) →
      ∀ (s s' : ResState), s.blockRead = false →
        resRunFrom env s ls = some s' →
        resOutput s' = resOutput s ∧ s'.blockRead = false := by
  intro ls
  induction ls with
  | nil =>
      intro _ s s' hbr hs
      rw [resRunFrom_nil] at hs
      obtain rfl := Option.some.inj hs
      exact ⟨rfl, hbr⟩
  | cons l t ih =>
      intro hd s s' hbr hs
      cases l with
      | timeLine t0 =>
          have := hd _ (List.mem_cons_self _ _)
          simp [ResLine.isData] at this
      | dataLine fields =>
          rw [resRunFrom_cons] at hs
          cases hstep : resStep env s (ResLine.dataLine fields) with
          | none => rw [hstep] at hs; cases hs
          | some s1 =>
              rw [hstep] at hs
              have hs2 : resRunFrom env s1 t = some s' := hs
              rw [resStep_data_false env s fields hbr] at hstep
              cases hm : parseFields fields with
              | none => rw [hm] at hstep; cases hstep
              | some v =>
                  rw [hm] at hstep
                  obtain rfl := Option.some.inj hstep
                  have hrest := ih (fun l2 h2 => hd l2 (List.mem_cons_of_mem _ h2))
                    { s with data := s.data ++ [v] } s' (by exact hbr) hs2
                  exact ⟨hrest.1, hrest.2⟩

theorem bind_isSome {α β : Type} (o : Option α) (f : α → Option β)
    (h : (o.bind f).isSome = true) : ∃ a, o = some a ∧ (f a).isSome = true := by
  cases o with
  | none => cases h
  | some a => exact ⟨a, rfl, h⟩

/-- C1: the data rows accumulated after the last `time` marker are never
written to the output: the conversion of a file whose final block is any
nonempty list of (well-formed) data rows produces the same netCDF output
regardless of what those rows contain — end of file never flushes them. -/
theorem res_last_block_dropped (env : GridEnv) (pre : List ResLine) (t : ℚ)
    (ds ds' : List ResLine)
    (hd : ∀ l ∈ ds, l.isData = true) (hd' : ∀ l ∈ ds', l.isData = true)
    (hne : ds ≠ []) (hne' : ds' ≠ [])
    (h1 : (resRun env (pre ++ ResLine.timeLine t :: ds)).isSome = true)
    (h2 : (resRun env (pre ++ ResLine.timeLine t :: ds')).isSome = true) :
    res_to_netcdf env (pre ++ ResLine.timeLine t :: ds)
      = res_to_netcdf env (pre ++ ResLine.timeLine t :: ds') := by
  obtain ⟨d, dt, rfl⟩ := List.exists_cons_of_ne_nil hne
  obtain ⟨d', dt', rfl⟩ := List.exists_cons_of_ne_nil hne'
  obtain ⟨fd, rfl⟩ : ∃ f, d = ResLine.dataLine f := by
    cases hdd : d with
    | timeLine t0 =>
        have := hd d (List.mem_cons_self _ _)
        rw [hdd] at this
        simp [ResLine.isData] at this
    | dataLine f => exact ⟨f, rfl⟩
  obtain ⟨fd', rfl⟩ : ∃ f, d' = ResLine.dataLine f := by
    cases hdd : d' with
    | timeLine t0 =>
        have := hd' d' (List.mem_cons_self _ _)
        rw [hdd] at this
        simp [ResLine.isData] at this
    | dataLine f => exact ⟨f, rfl⟩
  unfold res_to_netcdf
  simp only [resRun, resRunFrom_append, resRunFrom_cons] at h1 h2 ⊢
  obtain ⟨s0, hpre, h1b⟩ := bind_isSome _ _ h1
  rw [hpre] at h2 ⊢
  simp only [Option.some_bind] at h2 ⊢
  obtain ⟨sT, hT, h1c⟩ := bind_isSome _ _ h1b
  rw [hT] at h2 ⊢
  simp only [Option.some_bind] at h2 ⊢
  obtain ⟨a, hsa, h1d⟩ := bind_isSome _ _ h1c
  obtain ⟨b, hsb, h2d⟩ := bind_isSome _ _ h2
  rw [hsa, hsb]
  simp only [Option.some_bind]
  have hpair := resStep_data_pair env sT a b fd fd' hsa hsb
  obtain ⟨sF, hfa⟩ := Option.isSome_iff_exists.1 h1d
  obtain ⟨sF', hfb⟩ := Option.isSome_iff_exists.1 h2d
  rw [hfa, hfb]
  have hea := runFrom_data_output env dt
    (fun l2 h2x => hd l2 (List.mem_cons_of_mem _ h2x)) a sF hpair.2.1 hfa
  have heb := runFrom_data_output env dt'
    (fun l2 h2x => hd' l2 (List.mem_cons_of_mem _ h2x)) b sF' hpair.2.2 hfb
  show some (resOutput sF) = some (resOutput sF')
  rw [hea.1, heb.1, hpair.1]

theorem twoBlock_step1 (env : GridEnv) (t1 t2 : ℚ)
    (b1 b2 : List (List ℚ)) :
    resRun env (mkResFile t1 b1 t2 b2)
      = resRunFrom env (twoBlockS1 t1)
          (b1.map mkData ++ ResLine.timeLine t2 :: b2.map mkData) := rfl

theorem twoBlock_step2 (env : GridEnv) (t1 : ℚ) (b1 : List (List ℚ))
    (X : List ResLine) :
    resRunFrom env (twoBlockS1 t1) (b1.map mkData ++ X)
      = resRunFrom env (twoBlockS2 t1 b1) X := by
  rw [resRunFrom_append, runFrom_map_data env b1 _ rfl]
  rfl

theorem twoBlock_step3 (env : GridEnv) (t1 t2 : ℚ) (b1 : List (List ℚ))
    (rest : List ResLine) :
    resRunFrom env (twoBlockS2 t1 b1) (ResLine.timeLine t2 :: rest)
      = resRunFrom env (twoBlockS3 t1 t2 b1) rest := rfl

theorem twoBlock_flush_none (env : GridEnv) (t1 t2 : ℚ)
    (b1 : List (List ℚ)) (hfd : flushData env b1 initGrids = none) :
    flushState env (twoBlockS3 t1 t2 b1) = none := by
  unfold flushState
  rw [show flushData env (twoBlockS3 t1 t2 b1).data (twoBlockS3 t1 t2 b1).grids
      = flushData env b1 initGrids from rfl, hfd]

theorem twoBlock_flush_some (env : GridEnv) (t1 t2 : ℚ)
    (b1 : List (List ℚ)) (g : Grids) (v : List ℚ)
    (hfd : flushData env b1 initGrids = some g) :
    resStep env (twoBlockS3 t1 t2 b1) (mkData v)
      = some (twoBlockS4 t1 t2 b1 g v) := by
  rw [mkData, resStep_data_true env _ _ rfl]
  have hfs : flushState env (twoBlockS3 t1 t2 b1)
      = some { twoBlockS4 t1 t2 b1 g v with data := [] } := by
    unfold flushState
    rw [show flushData env (twoBlockS3 t1 t2 b1).data (twoBlockS3 t1 t2 b1).grids
        = flushData env b1 initGrids from rfl, hfd]
    rfl
  rw [hfs, parseFields_map_some]
  rfl

theorem twoBlock_tail (env : GridEnv) (t1 t2 : ℚ) (b1 : List (List ℚ))
    (g : Grids) (v : List ℚ) (vs : List (List ℚ)) :
    resRunFrom env (twoBlockS4 t1 t2 b1 g v) (vs.map mkData)
      = some (twoBlockS5 t1 t2 b1 g v vs) := by
  rw [runFrom_map_data env vs _ rfl]
  rfl

theorem twoBlock_run_nil (env : GridEnv) (t1 t2 : ℚ) (b1 : List (List ℚ)) :
    resRun env (mkResFile t1 b1 t2 []) = some (twoBlockS3 t1 t2 b1) := by
  rw [twoBlock_step1, twoBlock_step2]
  rfl

theorem twoBlock_run_cons (env : GridEnv) (t1 t2 : ℚ) (b1 : List (List ℚ))
    (g : Grids) (v : List ℚ) (vs : List (List ℚ))
    (hfd : flushData env b1 initGrids = some g) :
    resRun env (mkResFile t1 b1 t2 (v :: vs))
      = some (twoBlockS5 t1 t2 b1 g v vs) := by
  rw [twoBlock_step1, twoBlock_step2, List.map_cons, twoBlock_step3,
    resRunFrom_cons, twoBlock_flush_some env t1 t2 b1 g v hfd]
  simp only [Option.some_bind]
  exact twoBlock_tail env t1 t2 b1 g v vs

theorem twoBlock_run_cons_none (env : GridEnv) (t1 t2 : ℚ)
    (b1 : List (List ℚ)) (v : List ℚ) (vs : List (List ℚ))
    (hfd : flushData env b1 initGrids = none) :
    resRun env (mkResFile t1 b1 t2 (v :: vs)) = none := by
  rw [twoBlock_step1, twoBlock_step2, List.map_cons, twoBlock_step3,
    resRunFrom_cons]
  have hstep : resStep env (twoBlockS3 t1 t2 b1) (mkData v) = none := by
    rw [mkData, resStep_data_true env _ _ rfl,
      twoBlock_flush_none env t1 t2 b1 hfd]
  rw [hstep]
  rfl

/-- C6: a synthetic result file of two time blocks of k samples each yields an
output whose time dimension has exactly 2 slices, and every grid cell that no
sample writes to holds the sentinel -9999 in every slice (slice 0 is never
assigned, the first block lands in slice 1, the second block is dropped). -/
theorem res_two_blocks_two_slices (env : GridEnv) (t1 t2 : ℚ)
    (b1 b2 : List (List ℚ)) (k tt r c : ℕ)
    (hk1 : b1.length = k) (hk2 : b2.length = k)
    (htt : tt < 2) (hr : r < env.H) (hc : c < env.W)
    (hsm : (resRun env (mkResFile t1 b1 t2 b2)).isSome = true)
    (hnw : ¬ (tt = 1 ∧ writesTo env b1 r c)) :
    outLen env (mkResFile t1 b1 t2 b2) = 2
      ∧ outHeight env (mkResFile t1 b1 t2 b2) tt r c = -9999
      ∧ outVx env (mkResFile t1 b1 t2 b2) tt r c = -9999
      ∧ outVy env (mkResFile t1 b1 t2 b2) tt r c = -9999
      ∧ outVavg env (mkResFile t1 b1 t2 b2) tt r c = -9999 := by
  cases b2 with
  | nil =>
      have hrun := twoBlock_run_nil env t1 t2 b1
      refine ⟨?_, ?_, ?_, ?_, ?_⟩
      · simp only [outLen, res_to_netcdf, hrun, Option.map_some]
        rfl
      · simp only [outHeight, res_to_netcdf, hrun, Option.map_some]
        rfl
      · simp only [outVx, res_to_netcdf, hrun, Option.map_some]
        rfl
      · simp only [outVy, res_to_netcdf, hrun, Option.map_some]
        rfl
      · simp only [outVavg, res_to_netcdf, hrun, Option.map_some]
        rfl
  | cons v vs =>
      cases hfd : flushData env b1 initGrids with
      | none =>
          rw [twoBlock_run_cons_none env t1 t2 b1 v vs hfd] at hsm
          simp at hsm
      | some g =>
          have hrun := twoBlock_run_cons env t1 t2 b1 g v vs hfd
          have hunt : ¬ writesTo env b1 r c →
              g.h r c = -9999 ∧ g.vX r c = -9999
                ∧ g.vY r c = -9999 ∧ g.vAvg r c = -9999 := by
            intro hnw'
            have := flushData_untouched env b1 initGrids g r c hfd hnw'
            exact ⟨this.1, this.2.1, this.2.2.1, this.2.2.2⟩
          refine ⟨?_, ?_, ?_, ?_, ?_⟩
          · simp only [outLen, res_to_netcdf, hrun, Option.map_some]
            rfl
          · simp only [outHeight, res_to_netcdf, hrun, Option.map_some]
            show (if tt = 1 then g.h else fillGrid) r c = -9999
            by_cases h1 : tt = 1
            · subst h1
              rw [if_pos rfl]
              exact (hunt (fun hw => hnw ⟨rfl, hw⟩)).1
            · rw [if_neg h1]
              rfl
          · simp only [outVx, res_to_netcdf, hrun, Option.map_some]
            show (if tt = 1 then g.vX else fillGrid) r c = -9999
            by_cases h1 : tt = 1
            · subst h1
              rw [if_pos rfl]
              exact (hunt (fun hw => hnw ⟨rfl, hw⟩)).2.1
            · rw [if_neg h1]
              rfl
          · simp only [outVy, res_to_netcdf, hrun, Option.map_some]
            show (if tt = 1 then g.vY else fillGrid) r c = -9999
            by_cases h1 : tt = 1
            · subst h1
              rw [if_pos rfl]
              exact (hunt (fun hw => hnw ⟨rfl, hw⟩)).2.2.1
            · rw [if_neg h1]
              rfl
          · simp only [outVavg, res_to_netcdf, hrun, Option.map_some]
            show (if tt = 1 then g.vAvg else fillGrid) r c = -9999
            by_cases h1 : tt = 1
            · subst h1
              rw [if_pos rfl]
              exact (hunt (fun hw => hnw ⟨rfl, hw⟩)).2.2.2
            · rw [if_neg h1]
              rfl

/-- C5 counterexample: in the first flush run, the two samples
`[0.2, 4.5, 111, ...]` and `[0.7, 4.5, 222, ...]` share the truncated y `4.5`
and have different x, yet they land in the *same* column 0 of row 1, the
second overwriting the first — 111 appears nowhere in the flushed grid.  In
the second run the sample `[0.2, 4.55, 333, ...]` has truncated y `4.55 → 4.5`
equal to row 1's key, yet grouping uses its exact y `4.55`, so the sample is
dropped and the grid keeps the sentinel — 333 appears nowhere. -/
theorem res_flush_grouping_cex :
    (flushResult demoEnv cexD1).h 1 0 = 222
      ∧ (flushResult demoEnv cexD1).h 0 0 ≠ 111
      ∧ (flushResult demoEnv cexD1).h 0 1 ≠ 111
      ∧ (flushResult demoEnv cexD1).h 1 0 ≠ 111
      ∧ (flushResult demoEnv cexD1).h 1 1 ≠ 111
      ∧ truncate (91/20) 1 = rowKey demoEnv 1
      ∧ (flushResult demoEnv cexD2).h 1 0 = -9999
      ∧ (flushResult demoEnv cexD2).h 0 0 ≠ 333
      ∧ (flushResult demoEnv cexD2).h 0 1 ≠ 333
      ∧ (flushResult demoEnv cexD2).h 1 0 ≠ 333
      ∧ (flushResult demoEnv cexD2).h 1 1 ≠ 333 := by
  with_unfolding_all decide

/-- C5 amended: in a flush step the accumulated samples are sorted by y and
grouped by their *exact* y value (not the truncated one); a grid row receives
the group whose key equals the row's center y truncated to 1 decimal; each
received sample is written at column `trunc((x - xmin)/pixel)` (its values
cast to integers by the int64 grid); in particular two samples of such a
group that are the unique writers of two different columns are placed in the
same grid row and their respective distinct columns. -/
theorem res_flush_placement (env : GridEnv) (D : List (List ℚ))
    (row c1 c2 : ℕ) (s1 s2 : List ℚ)
    (hrow : row < env.H)
    (hs1 : s1 ∈ D) (hs2 : s2 ∈ D)
    (hy1 : keyD s1 = rowKey env row) (hy2 : keyD s2 = rowKey env row)
    (hc1 : npIndex env.W (colIndex env s1) = some c1)
    (hc2 : npIndex env.W (colIndex env s2) = some c2)
    (hne : c1 ≠ c2)
    (hu1 : ∀ j ∈ D, keyD j = rowKey env row →
      npIndex env.W (colIndex env j) = some c1 → j = s1)
    (hu2 : ∀ j ∈ D, keyD j = rowKey env row →
      npIndex env.W (colIndex env j) = some c2 → j = s2)
    (hsm : (flushData env D initGrids).isSome = true) :
    (flushResult env D).h row c1 = ratTrunc (s1.getD 2 0)
      ∧ (flushResult env D).vX row c1 = ratTrunc (s1.getD 3 0)
      ∧ (flushResult env D).vY row c1 = ratTrunc (s1.getD 4 0)
      ∧ (flushResult env D).vAvg row c1 = ratTrunc (s1.getD 5 0)
      ∧ (flushResult env D).h row c2 = ratTrunc (s2.getD 2 0)
      ∧ (flushResult env D).vX row c2 = ratTrunc (s2.getD 3 0)
      ∧ (flushResult env D).vY row c2 = ratTrunc (s2.getD 4 0)
      ∧ (flushResult env D).vAvg row c2 = ratTrunc (s2.getD 5 0) := by
  obtain ⟨g, hg⟩ := Option.isSome_iff_exists.1 hsm
  have hfr : flushResult env D = g := by rw [flushResult, hg]; rfl
  have h1 := flushData_sets env D initGrids g row c1 s1 hrow hs1 hy1 hc1 hu1 hg
  have h2 := flushData_sets env D initGrids g row c2 s2 hrow hs2 hy2 hc2 hu2 hg
  rw [hfr]
  exact ⟨h1.1, h1.2.1, h1.2.2.1, h1.2.2.2,
    h2.1, h2.2.1, h2.2.2.1, h2.2.2.2⟩

/-- C5 witness: two samples with equal y 4.5 whose x values 0.2 and 1.7 fall
in different pixels are placed in row 1 at columns 0 and 1. -/
theorem res_flush_placement_witness :
    (flushResult demoEnv amendD).h 1 0 = 11
      ∧ (flushResult demoEnv amendD).h 1 1 = 21 := by
  have e1 : ratTrunc (([1/5, 9/2, 11, 12, 13, 14] : List ℚ).getD 2 0)
      = 11 := by with_unfolding_all decide
  have e2 : ratTrunc (([17/10, 9/2, 21, 22, 23, 24] : List ℚ).getD 2 0)
      = 21 := by with_unfolding_all decide
  have h := res_flush_placement demoEnv amendD 1 0 1
    [1/5, 9/2, 11, 12, 13, 14] [17/10, 9/2, 21, 22, 23, 24]
    (by decide)
    (by with_unfolding_all decide) (by with_unfolding_all decide)
    (by with_unfolding_all decide) (by with_unfolding_all decide)
    (by with_unfolding_all decide) (by with_unfolding_all decide)
    (by decide)
    (by with_unfolding_all decide) (by with_unfolding_all decide)
    (by with_unfolding_all decide)
  exact ⟨h.1.trans e1, h.2.2.2.2.1.trans e2⟩

/-- C1 witness: appending a further data row to the final block leaves the
output unchanged. -/
theorem res_last_block_dropped_witness :
    res_to_netcdf demoEnv
        ([ResLine.timeLine 0, mkData demoRow1]
          ++ ResLine.timeLine 10 :: [mkData demoRow2, mkData demoRow3])
      = res_to_netcdf demoEnv
        ([ResLine.timeLine 0, mkData demoRow1]
          ++ ResLine.timeLine 10 :: [mkData demoRow2]) :=
  res_last_block_dropped demoEnv [ResLine.timeLine 0, mkData demoRow1] 10
    [mkData demoRow2, mkData demoRow3] [mkData demoRow2]
    (by with_unfolding_all decide) (by with_unfolding_all decide)
    (by with_unfolding_all decide) (by with_unfolding_all decide)
    (by with_unfolding_all decide) (by with_unfolding_all decide)

/-- C2 witness: on a concrete two-block file, slice 0 of all four variables
holds the fill value. -/
theorem res_first_slice_is_fill_witness :
    outHeight demoEnv demoLines2 0 0 0 = -9999
      ∧ outVx demoEnv demoLines2 0 0 0 = -9999
      ∧ outVy demoEnv demoLines2 0 0 0 = -9999
      ∧ outVavg demoEnv demoLines2 0 0 0 = -9999 :=
  res_first_slice_is_fill demoEnv demoLines2 0 0
    (by decide) (by decide)
    (by with_unfolding_all decide) (by with_unfolding_all decide)

/-- C3 witness: the demo raster's cell (1, 0) produces the expected center
coordinates, and row 1's center y lies south of row 0's. -/
theorem dem_to_top_cell_coords_witness :
    TopLine.dataLine (demoRaster.xmin + (((0 : ℕ) : ℚ) + 1/2) * demoRaster.pixel)
        (demoRaster.ymax - (((1 : ℕ) : ℚ) + 1/2) * demoRaster.pixel)
        (demoRaster.value 1 0) ∈ dem_to_top demoRaster
      ∧ demoRaster.ymax - (((1 : ℕ) : ℚ) + 1/2) * demoRaster.pixel
          < demoRaster.ymax - ((0 : ℚ) + 1/2) * demoRaster.pixel :=
  dem_to_top_cell_coords demoRaster 1 0 1 (by decide) (by decide)
    (by decide) (by with_unfolding_all decide) (by decide) (by decide)

/-- C4 witness: on the demo raster the data-line count equals the valid-cell
count and line 0 is unchanged by the second pass. -/
theorem dem_to_top_structure_witness :
    (topDataLines demoRaster).length = validCount demoRaster
      ∧ (dem_to_top demoRaster).get? 0 = (dem_to_top_pass1 demoRaster).get? 0 := by
  have h := dem_to_top_structure demoRaster 0 (TopLine.dataLine (1/2) (3/2) 0)
    (by decide) (by with_unfolding_all decide)
  exact ⟨h.2.1, h.2.2.2⟩

/-- C6 witness: a concrete file with two one-sample blocks yields 2 slices and
the sentinel at an unwritten cell of slice 1. -/
theorem res_two_blocks_two_slices_witness :
    outLen demoEnv (mkResFile 0 [demoRow1] 10 [demoRow2]) = 2
      ∧ outHeight demoEnv (mkResFile 0 [demoRow1] 10 [demoRow2]) 1 0 0 = -9999
      ∧ outVx demoEnv (mkResFile 0 [demoRow1] 10 [demoRow2]) 1 0 0 = -9999
      ∧ outVy demoEnv (mkResFile 0 [demoRow1] 10 [demoRow2]) 1 0 0 = -9999
      ∧ outVavg demoEnv (mkResFile 0 [demoRow1] 10 [demoRow2]) 1 0 0 = -9999 :=
  res_two_blocks_two_slices demoEnv 0 10 [demoRow1] [demoRow2] 1 1 0 0
    (by decide) (by decide) (by decide) (by decide) (by decide)
    (by with_unfolding_all decide) (by with_unfolding_all decide)
